import Mathlib

/-!
A shallow embedding of the windowed statistics aggregator
(`nginx2es/stat.py`) and of the startup schema-template check
(`nginx2es/cli.py`) of the nginx2es repository, together with theorems
checking the specification's claims about them.

Modelling conventions:
* Python floats (wall-clock readings, record timestamps, metric values)
  are modelled as rationals; the `log10` latency bucketing is modelled
  over the reals.
* The Python dicts `Stat.buffers` and `Stat.last_seen` are modelled as
  functions into `Option`; a missing key is `none`.
* Code paths that raise exceptions are modelled with `Option` results or
  with an explicit exception type mirroring the `except` clauses.
-/

namespace Nginx2es

/-- A value stored in a parsed access-log record (a Python dict value).
`dt q` models a datetime object whose `.timestamp()` equals `q`.
Only the value shapes the claims exercise are represented. -/
inductive Val where
  | num (q : ℚ)
  | str (s : String)
  | dt (epoch : ℚ)
  | null
deriving DecidableEq

/-- A parsed access-log record: a Python dict modelled as an association list. -/
abbrev Rec := List (String × Val)

/-- Python float modulo: `a % b = a - b * floor(a / b)` (result has the
sign of the divisor), as used in `Stat.timestamp`. -/
def pymod (a b : ℚ) : ℚ := a - b * ⌊a / b⌋

/-- Python `int()` applied to a float: truncation toward zero. -/
def intTrunc (q : ℚ) : ℤ := if 0 ≤ q then ⌊q⌋ else ⌈q⌉

/-- `Stat.timestamp` (stat.py lines 102-104): `int(ts - ts % self.interval)`
for `ts = dt.timestamp()`. -/
def Stat.timestamp (interval : ℤ) (t : ℚ) : ℤ := intTrunc (t - pymod t (interval : ℚ))

/-- `Stat.columns` (stat.py lines 23-29): the dimension and metric columns
kept by the aggregator; `columns_set` in the source is the same collection
viewed as a set, used only for membership tests. -/
def Stat.columns : List String :=
  [("host"), ("request_path_1"), ("request_path_2"),
   ("upstream_cache_status"), ("status"),
   ("request_time"), ("upstream_response_time"), ("bytes_sent")]

/-- The aggregator's shared mutable state (stat.py lines 62-65): per-bucket
record buffers (`defaultdict(list)`), per-bucket last-seen wall-clock times,
and the deque of recently sent bucket ids. -/
structure StatState where
  buffers : ℤ → Option (List Rec)
  last_seen : ℤ → Option ℚ
  last_sent : List ℤ

/-- The state right after `Stat.__init__`: both maps empty, nothing sent. -/
def initState : StatState :=
  { buffers := fun _ => none, last_seen := fun _ => none, last_sent := [] }

/-- The dict comprehension in `Stat.hit` (stat.py line 97):
`{k: v for k, v in row.items() if k in self.columns_set}`. -/
def projectRow (row : Rec) : Rec :=
  row.filter (fun kv => Stat.columns.contains kv.1)

/-- `Stat.hit` (stat.py lines 92-100).  `row['status']` and
`row['@timestamp']` raise on a malformed row, modelled by `none`;
otherwise, a status of 0 discards the row, and any other status appends
the projected row to its bucket's buffer and stamps the bucket's
last-seen time with the current wall-clock time `now`. -/
def Stat.hit (interval : ℤ) (now : ℚ) (s : StatState) (row : Rec) : Option StatState :=
  match row.lookup ("status") with
  | none => none
  | some st =>
    if st = Val.num 0 then some s
    else
      match row.lookup ("@timestamp") with
      | some (Val.dt t) =>
        let ts := Stat.timestamp interval t
        some { s with
          last_seen := fun k => if k = ts then some now else s.last_seen k
          buffers := fun k =>
            if k = ts then some ((s.buffers ts).getD [] ++ [projectRow row])
            else s.buffers k }
      | _ => none

/-- The two `continue` guards of `Stat.get_ready_buffers` (stat.py lines
116-122): a buffered window is ready only when neither guard fires. -/
def windowReady (interval : ℤ) (delay now : ℚ) (ts : ℤ) (ls : ℚ) : Bool :=
  if (ts : ℚ) + (interval : ℚ) + delay > now then false
  else if ls + delay > now then false
  else true

/-- Whether the scan at wall-clock `now` removes bucket `ts` from state `s`. -/
def readyAt (interval : ℤ) (delay now : ℚ) (s : StatState) (ts : ℤ) : Bool :=
  match s.last_seen ts with
  | some ls => windowReady interval delay now ts ls
  | none => false

/-- `Stat.get_ready_buffers` (stat.py lines 111-126): under the lock,
every bucket whose guards have both elapsed is deleted from `last_seen`,
popped from `buffers`, and collected into the returned `ready` dict.
The result is the updated state paired with the `ready` map. -/
def Stat.get_ready_buffers (interval : ℤ) (delay : ℚ) (s : StatState) (now : ℚ) :
    StatState × (ℤ → Option (List Rec)) :=
  ({ s with
     buffers := fun ts => if readyAt interval delay now s ts then none else s.buffers ts
     last_seen := fun ts => if readyAt interval delay now s ts then none else s.last_seen ts },
   fun ts => if readyAt interval delay now s ts then s.buffers ts else none)

/-- The key-set alignment invariant between the two shared maps of the
aggregator: a bucket has buffered records iff it has a last-seen time. -/
def keysAligned (s : StatState) : Prop :=
  ∀ ts : ℤ, s.buffers ts = none ↔ s.last_seen ts = none

/-- Exception kinds relevant to `Stat.process` (stat.py lines 142-153).
`sockError` is a `socket.error` (`OSError`) that is not a
`BrokenPipeError`; `other` is any exception outside `OSError`,
`KeyboardInterrupt` and `BrokenPipeError` (e.g. the `Exception` raised
by `Stat.connect`). -/
inductive PyExc where
  | sockError
  | brokenPipe
  | keyboardInterrupt
  | other
deriving DecidableEq

/-- Python's `except socket.error` clause: `socket.error` is `OSError`,
and `BrokenPipeError` is a subclass of it. -/
def PyExc.isSocketError : PyExc → Bool
  | sockError => true
  | brokenPipe => true
  | _ => false

/-- Python's `except (KeyboardInterrupt, BrokenPipeError)` clause. -/
def PyExc.isKbOrBrokenPipe : PyExc → Bool
  | keyboardInterrupt => true
  | brokenPipe => true
  | _ => false

/-- Outcome of one attempted I/O action (a send or a connect). -/
inductive Attempt where
  | ok
  | raise (e : PyExc)
deriving DecidableEq

/-- An oracle fixing, per bucket id, the outcome of the first
`send_metrics` call, of the `connect()` retry, and of the second
`send_metrics` call in `Stat.process`. -/
structure SendEnv where
  firstSend : ℤ → Attempt
  connect : ℤ → Attempt
  secondSend : ℤ → Attempt

/-- Observable effects of `Stat.process`: the duplicate-window diagnostic
log (stat.py lines 132-137), a completed `send_metrics` delivery, a call
to `connect()`, the `can't send metrics` error log (line 153), and the
`eof.set(); return` shutdown (lines 149-151). -/
inductive Event where
  | lateLog (ts : ℤ) (n : ℕ)
  | sent (ts : ℤ)
  | reconnect (ts : ℤ)
  | errorLog (ts : ℤ)
  | stopped
deriving DecidableEq

/-- The recency-bound maintenance of `last_sent` (stat.py lines 139-140):
after an append, drop the oldest entry when the length exceeds 100. -/
def evictOld (sent : List ℤ) : List ℤ :=
  if sent.length > 100 then sent.tail else sent

/-- The body of the `for` loop of `Stat.process` (stat.py lines 130-153)
for one window `(ts, rows)` where `n` is the number of buffered rows.
Returns the new `last_sent`, the emitted events in order, and whether
the loop `return`ed (shutting the aggregator down). -/
def processWindow (env : SendEnv) (sent : List ℤ) (ts : ℤ) (n : ℕ) :
    List ℤ × List Event × Bool :=
  if ts ∈ sent then (sent, [Event.lateLog ts n], false)
  else
    let sent' := evictOld (sent ++ [ts])
    match env.firstSend ts with
    | Attempt.ok => (sent', [Event.sent ts], false)
    | Attempt.raise e =>
      if e.isSocketError = true then
        match env.connect ts with
        | Attempt.ok =>
          match env.secondSend ts with
          | Attempt.ok => (sent', [Event.reconnect ts, Event.sent ts], false)
          | Attempt.raise e2 =>
            if e2.isKbOrBrokenPipe = true then (sent', [Event.reconnect ts], true)
            else (sent', [Event.reconnect ts, Event.errorLog ts], false)
        | Attempt.raise ce =>
          if ce.isKbOrBrokenPipe = true then (sent', [Event.reconnect ts], true)
          else (sent', [Event.reconnect ts, Event.errorLog ts], false)
      else
        if e.isKbOrBrokenPipe = true then (sent', [], true)
        else (sent', [Event.errorLog ts], false)

/-- `Stat.process` (stat.py lines 128-153) over the list of ready windows,
threading `last_sent` and stopping (with `eof.set()`) when a window's
handler `return`s. -/
def Stat.process (env : SendEnv) : List ℤ → List (ℤ × ℕ) → List ℤ × List Event
  | sent, [] => (sent, [])
  | sent, w :: rest =>
    if (processWindow env sent w.1 w.2).2.2 then
      ((processWindow env sent w.1 w.2).1,
       (processWindow env sent w.1 w.2).2.1 ++ [Event.stopped])
    else
      ((Stat.process env (processWindow env sent w.1 w.2).1 rest).1,
       (processWindow env sent w.1 w.2).2.1 ++
         (Stat.process env (processWindow env sent w.1 w.2).1 rest).2)

/-! Metric rendering (`Stat.send_metrics` and `Stat.metric_name`,
stat.py lines 155-161 and 222-229).  Strings are modelled as `List Char`
so that the separator substitution can be reasoned about charwise. -/

/-- Decimal digits of a natural number, as Python's `str()` renders it.
`fuel` strictly bounds the recursion depth; `natToChars` supplies enough. -/
def natToCharsAux : ℕ → ℕ → List Char
  | 0, _ => []
  | fuel + 1, n =>
    if n < 10 then [Nat.digitChar n]
    else natToCharsAux fuel (n / 10) ++ [Nat.digitChar (n % 10)]

/-- Decimal rendering of a natural number. -/
def natToChars (n : ℕ) : List Char := natToCharsAux (n + 1) n

/-- Python `'%s' % i` for an int: optional sign, then decimal digits. -/
def intToChars (n : ℤ) : List Char :=
  if n < 0 then '-' :: natToChars n.natAbs else natToChars n.toNat

/-- The three fractional digits of `'%.3f'`: the thousandths count `n`
(with `0 ≤ n < 1000`) zero-padded to width three. -/
def pad3 (n : ℤ) : List Char :=
  [Nat.digitChar (n.toNat / 100 % 10), Nat.digitChar (n.toNat / 10 % 10),
   Nat.digitChar (n.toNat % 10)]

/-- `'%.3f' % q` for a nonnegative value: round to thousandths, then
print integer part, the separator, and exactly three fractional digits.
Decimal idealization of CPython's binary-float formatting (ties here
round half away from zero rather than to even). -/
def format3n (q : ℚ) : List Char :=
  intToChars (round (q * 1000) / 1000) ++ '.' :: pad3 (round (q * 1000) % 1000)

/-- `'%.3f' % q` (stat.py line 158). -/
def format3 (q : ℚ) : List Char :=
  if q < 0 then '-' :: format3n (-q) else format3n q

/-- A metric value as produced by `Stat.metrics`: numpy sums of float
columns are floats, counts and byte sums are ints.  `send_metrics`
formats floats with `'%.3f'` and everything else with `'%s'`. -/
inductive MetricVal where
  | intv (n : ℤ)
  | floatv (q : ℚ)
deriving DecidableEq

/-- The `value` formatting branch of `Stat.send_metrics` (lines 157-158). -/
def renderVal : MetricVal → List Char
  | MetricVal.intv n => intToChars n
  | MetricVal.floatv q => format3 q

/-- One wire line, `"%s %s %s\n" % (name, value, timestamp)` (line 159). -/
def metricLine (name : List Char) (v : MetricVal) (ts : ℤ) : List Char :=
  name ++ ' ' :: renderVal v ++ ' ' :: intToChars ts ++ ['\n']

/-- `Stat.send_metrics` (stat.py lines 155-161): the list of lines
written (and then flushed) for one window's metrics. -/
def Stat.send_metrics (metrics : List (List Char × MetricVal)) (ts : ℤ) :
    List (List Char) :=
  metrics.map (fun nv => metricLine nv.1 nv.2 ts)

/-- Python `str.replace('.', '_')`: charwise substitution of the metric
path separator (stat.py line 229). -/
def repDot (s : List Char) : List Char :=
  s.map (fun c => if c = '.' then '_' else c)

/-- Python `str.split('.')`. Never returns the empty list. -/
def splitDot : List Char → List (List Char)
  | [] => [[]]
  | c :: rest =>
    match splitDot rest with
    | [] => [[]]
    | h :: t => if c = '.' then [] :: h :: t else (c :: h) :: t

/-- Python `'.'.join(...)`. -/
def joinDot : List (List Char) → List Char
  | [] => []
  | [p] => p
  | p :: ps => p ++ '.' :: joinDot ps

/-- One `*args` element of `Stat.metric_name`: either a single value
(appended) or a tuple of grouping-dimension values (extended). -/
inductive MetricArg where
  | atom (s : List Char)
  | dims (l : List (List Char))

/-- The parts an argument contributes to the identifier. -/
def MetricArg.parts : MetricArg → List (List Char)
  | MetricArg.atom s => [s]
  | MetricArg.dims l => l

/-- `Stat.metric_name` (stat.py lines 222-229): split the prefix on the
separator, extend with the argument parts, replace every separator
occurring inside a part, and join. -/
def Stat.metric_name (pfx : List Char) (args : List MetricArg) : List Char :=
  joinDot ((splitDot pfx ++ (args.map MetricArg.parts).flatten).map repDot)

/-! Path-segment and cache-status normalization performed at the top of
`Stat.metrics` (stat.py lines 170-182), together with the two module-level
regexes (stat.py lines 12-18). -/

/-- A character matched by the `[A-Fa-f0-9]` class of `uuid_regex`. -/
def isHexChar (c : Char) : Bool :=
  ('A' ≤ c && c ≤ 'F') || ('a' ≤ c && c ≤ 'f') || ('0' ≤ c && c ≤ '9')

/-- Consume exactly `k` hex characters, returning the remaining input. -/
def takeHex : ℕ → List Char → Option (List Char)
  | 0, s => some s
  | _ + 1, [] => none
  | k + 1, c :: rest => if isHexChar c then takeHex k rest else none

/-- Consume one literal dash. -/
def takeDash : List Char → Option (List Char)
  | [] => none
  | c :: rest => if c = '-' then some rest else none

/-- Match `uuid_regex` (8-4-4-4-12 hex groups) at the head of the input,
returning the suffix after the match. -/
def matchUuid (s : List Char) : Option (List Char) :=
  (takeHex 8 s).bind fun s1 =>
  (takeDash s1).bind fun s2 =>
  (takeHex 4 s2).bind fun s3 =>
  (takeDash s3).bind fun s4 =>
  (takeHex 4 s4).bind fun s5 =>
  (takeDash s5).bind fun s6 =>
  (takeHex 4 s6).bind fun s7 =>
  (takeDash s7).bind fun s8 =>
  takeHex 12 s8

/-- Regex substitution of every `uuid_regex` match by `<uuid>`, scanning
left to right as `re.sub` does; `fuel` bounds the recursion and
`uuidSub` supplies the input length, which suffices since every match
consumes at least one character. -/
def uuidSubAux : ℕ → List Char → List Char
  | 0, s => s
  | _ + 1, [] => []
  | fuel + 1, c :: rest =>
    match matchUuid (c :: rest) with
    | some rest' => ("<uuid>").toList ++ uuidSubAux fuel rest'
    | none => c :: uuidSubAux fuel rest

/-- `Series.replace(uuid_regex, '<uuid>')` on one cell. -/
def uuidSub (s : List Char) : List Char := uuidSubAux s.length s

/-- The per-cell effect on a path-segment column of stat.py lines
176-181: `fillna('#')`, then the unanchored uuid substitution, then the
anchored `^[0-9]+$` replacement by `<id>`. -/
def normalizePath (seg : Option (List Char)) : List Char :=
  let s0 := seg.getD ('#' :: [])
  let s1 := uuidSub s0
  if s1 ≠ [] ∧ s1.all Char.isDigit = true then ("<id>").toList else s1

/-- The per-cell effect of `df['upstream_cache_status'].fillna('NONE')`
(stat.py line 182). -/
def normalizeCache (v : Option (List Char)) : List Char :=
  v.getD (("NONE").toList)

/-! The latency bucketing `Stat.log10_bins` (stat.py lines 163-168),
modelled over the reals.  Only the integer `pow10` stage is modelled:
`np.log10` of a nonpositive float is NaN (as is `0` after
`replace(0, nan)`), `fillna(-31)` maps NaN to `-31`, and
`astype(np.int)` truncates toward zero. -/

/-- numpy `astype(np.int)` on a float: truncation toward zero. -/
noncomputable def truncZ (x : ℝ) : ℤ := if 0 ≤ x then ⌊x⌋ else ⌈x⌉

/-- The `pow10` bucket index of `Stat.log10_bins` (stat.py line 167):
`(np.log10(series.replace(0, np.nan)) * 10.).fillna(-31).astype(np.int)`. -/
noncomputable def Stat.log10_bins (x : ℝ) : ℤ :=
  if x ≤ 0 then -31 else truncZ (Real.logb 10 x * 10)

/-- Modelled from the spec: the bucket-index formula the claim states,
`round(log10(value) * 10)`, for comparison with `Stat.log10_bins`. -/
noncomputable def specBin (x : ℝ) : ℤ := round (Real.logb 10 x * 10)

/-! The startup schema-template phase of `main` (cli.py lines 201-209)
around `check_template` (cli.py lines 58-64). -/

/-- Outcome of the `check_template(es, ...)` call: it either succeeds or
raises `elasticsearch.ConnectionError` because the backend is
unreachable. -/
inductive TemplateOutcome where
  | ok
  | connectionError
deriving DecidableEq

/-- What `main` proceeds to do after the template phase. -/
inductive MainResult where
  | runStdout
  | runIndexing
  | exitCode (n : ℕ)
deriving DecidableEq

/-- cli.py lines 201-209: with `--stdout` the template check is skipped
and `nginx2es.stdout` is used; otherwise `check_template` is called
exactly once and a `ConnectionError` is logged and turned into
`sys.exit(1)`.  The second component counts `check_template` calls. -/
def mainTemplatePhase (useStdout : Bool) (t : TemplateOutcome) : MainResult × ℕ :=
  if useStdout then (MainResult.runStdout, 0)
  else
    match t with
    | TemplateOutcome.ok => (MainResult.runIndexing, 1)
    | TemplateOutcome.connectionError => (MainResult.exitCode 1, 1)

/-! Concrete fixtures used by counterexamples and witnesses. -/

/-- A sample projected record. -/
def exRow : Rec := [(("host"), Val.str ("example.com"))]

/-- A state holding one window: bucket 1000 with one buffered record,
last seen at wall-clock 1005. -/
def c1State : StatState :=
  { buffers := fun ts => if ts = 1000 then some [exRow] else none
    last_seen := fun ts => if ts = 1000 then some 1005 else none
    last_sent := [] }

/-- A record of a non-HTTP transaction (status 0). -/
def row0 : Rec := [(("status"), Val.num 0), (("host"), Val.str ("a"))]

/-- An ordinary HTTP record with timestamp 1005.7 and an extra field
outside the aggregator's column set. -/
def rowH : Rec :=
  [(("status"), Val.num 200), (("@timestamp"), Val.dt (10057 / 10)),
   (("host"), Val.str ("example.com")), (("remote_addr"), Val.str ("10.0.0.1"))]

/-- An environment where every send and connect succeeds. -/
def allOk : SendEnv :=
  { firstSend := fun _ => Attempt.ok, connect := fun _ => Attempt.ok
    secondSend := fun _ => Attempt.ok }

/-- Bucket 0, then one hundred further buckets, then bucket 0 again. -/
def C2windows : List (ℤ × ℕ) :=
  ((0 : ℤ), 1) :: (List.range 100).map (fun i => ((i : ℤ) + 1, 1)) ++ [((0 : ℤ), 1)]

/-- An environment where the first send hits a generic socket error, the
reconnect succeeds, and the resend dies on a broken pipe. -/
def envCE : SendEnv :=
  { firstSend := fun _ => Attempt.raise PyExc.sockError
    connect := fun _ => Attempt.ok
    secondSend := fun _ => Attempt.raise PyExc.brokenPipe }

/-- An environment where the first send hits a generic socket error, the
reconnect succeeds, and the resend fails with a non-broken-pipe error. -/
def envW : SendEnv :=
  { firstSend := fun _ => Attempt.raise PyExc.sockError
    connect := fun _ => Attempt.ok
    secondSend := fun _ => Attempt.raise PyExc.other }

/-- A one-entry metric list for exercising `send_metrics`. -/
def wMetrics : List (List Char × MetricVal) :=
  [((("cpu").toList), MetricVal.floatv 1)]

/-- The canonical UUID sample from the spec. -/
def uuidEx : List Char := ("3fa85f64-5717-4562-b3fc-2c963f66afa6").toList

/-! Theorems. -/

/-- The two `continue` guards, as a readiness condition: a window is
collected exactly when the wall clock has reached or passed both
`ts + interval + delay` and `last_seen + delay`. -/
theorem windowReady_iff (interval : ℤ) (delay now ls : ℚ) (ts : ℤ) :
    windowReady interval delay now ts ls = true ↔
      ((ts : ℚ) + (interval : ℚ) + delay ≤ now ∧ ls + delay ≤ now) := by
  unfold windowReady
  split_ifs with h1 h2
  · simp only [Bool.false_eq_true, false_iff]
    intro h
    exact absurd h.1 (not_le.mpr h1)
  · simp only [Bool.false_eq_true, false_iff]
    intro h
    exact absurd h.2 (not_le.mpr h2)
  · simp only [true_iff]
    exact ⟨not_lt.mp h1, not_lt.mp h2⟩

/-- Claim C1, counterexample.  The claim reads "finalized exactly when
the wall-clock time has advanced past ts + interval + delay and past
last_seen + delay; if either condition fails, the window stays open".
At wall-clock exactly 1015 (= 1000 + 10 + 5) the clock has not advanced
past the bucket-end-plus-delay bound, yet the scan finalizes the bucket
1000 window: both guards use strict `>` for keeping the window open, so
the boundary instant is already ready. -/
theorem C1_counterexample :
    ¬ ((1015 : ℚ) > (1000 : ℚ) + (10 : ℚ) + (5 : ℚ)) ∧
    (Stat.get_ready_buffers 10 5 c1State 1015).2 1000 = some [exRow] ∧
    (Stat.get_ready_buffers 10 5 c1State 1015).1.buffers 1000 = none ∧
    (Stat.get_ready_buffers 10 5 c1State 1015).1.last_seen 1000 = none := by
  refine ⟨by norm_num,
    by norm_num [Stat.get_ready_buffers, readyAt, c1State, windowReady],
    by norm_num [Stat.get_ready_buffers, readyAt, c1State, windowReady],
    by norm_num [Stat.get_ready_buffers, readyAt, c1State, windowReady]⟩

/-- Claim C1 (amended): for every buffered window with bucket id `ts`,
the background ready-scan removes and finalizes that window exactly when
the current wall-clock time has reached or passed (≥) both
`ts + interval + delay` and `last_seen[ts] + delay`; if either bound has
not been reached, the window stays open and its buffer and last-seen
entry are unchanged.  In particular, with interval 10 and delay 5, a
bucket-1000 window last seen at wall-clock 1005 is finalized by a scan
at wall-clock 1016 (see the witness). -/
theorem C1_ready_scan (interval : ℤ) (delay now ls : ℚ) (s : StatState) (ts : ℤ)
    (h : s.last_seen ts = some ls) :
    (((ts : ℚ) + (interval : ℚ) + delay ≤ now ∧ ls + delay ≤ now) →
      ((Stat.get_ready_buffers interval delay s now).2 ts = s.buffers ts ∧
       (Stat.get_ready_buffers interval delay s now).1.buffers ts = none ∧
       (Stat.get_ready_buffers interval delay s now).1.last_seen ts = none)) ∧
    (¬ ((ts : ℚ) + (interval : ℚ) + delay ≤ now ∧ ls + delay ≤ now) →
      ((Stat.get_ready_buffers interval delay s now).2 ts = none ∧
       (Stat.get_ready_buffers interval delay s now).1.buffers ts = s.buffers ts ∧
       (Stat.get_ready_buffers interval delay s now).1.last_seen ts = some ls)) := by
  have hr : readyAt interval delay now s ts = windowReady interval delay now ts ls := by
    unfold readyAt
    rw [h]
  constructor
  · intro hc
    have ht : readyAt interval delay now s ts = true := by
      rw [hr, windowReady_iff]
      exact hc
    unfold Stat.get_ready_buffers
    simp [ht]
  · intro hc
    have ht : readyAt interval delay now s ts = false := by
      rw [hr]
      rw [Bool.eq_false_iff]
      intro htrue
      exact hc ((windowReady_iff interval delay now ls ts).mp htrue)
    unfold Stat.get_ready_buffers
    simp [ht, h]

/-- Claim C1, witness: the spec's end-to-end scenario (interval 10,
delay 5, last seen 1005, scan at 1016) finalizes bucket 1000. -/
theorem C1_witness :
    c1State.last_seen 1000 = some 1005 ∧
    (((1000 : ℤ) : ℚ) + ((10 : ℤ) : ℚ) + 5 ≤ 1016 ∧ (1005 : ℚ) + 5 ≤ 1016) ∧
    ((Stat.get_ready_buffers 10 5 c1State 1016).2 1000 = c1State.buffers 1000 ∧
     (Stat.get_ready_buffers 10 5 c1State 1016).1.buffers 1000 = none ∧
     (Stat.get_ready_buffers 10 5 c1State 1016).1.last_seen 1000 = none) := by
  refine ⟨by simp [c1State], ⟨by norm_num, by norm_num⟩, ?_⟩
  exact (C1_ready_scan 10 5 1016 1005 c1State 1000 (by simp [c1State])).1
    ⟨by norm_num, by norm_num⟩

/-- Claim C4: a record with status 0 is discarded and the state is
unchanged; any other record has its projection onto the aggregator's
column set appended to the window whose bucket id is the record's
timestamp truncated to the interval (`int(ts - ts % interval)`), and
that window's last-seen time is set to the current wall-clock time,
all other windows being untouched and `last_sent` unchanged. -/
theorem C4_hit_cases (interval : ℤ) (now : ℚ) (s : StatState) (row : Rec) :
    (row.lookup ("status") = some (Val.num 0) → Stat.hit interval now s row = some s) ∧
    (∀ st t, row.lookup ("status") = some st → st ≠ Val.num 0 →
      row.lookup ("@timestamp") = some (Val.dt t) →
      Stat.hit interval now s row = some
        { buffers := fun k =>
            if k = intTrunc (t - pymod t (interval : ℚ)) then
              some ((s.buffers (intTrunc (t - pymod t (interval : ℚ)))).getD [] ++
                [row.filter (fun kv => Stat.columns.contains kv.1)])
            else s.buffers k
          last_seen := fun k =>
            if k = intTrunc (t - pymod t (interval : ℚ)) then some now
            else s.last_seen k
          last_sent := s.last_sent }) := by
  constructor
  · intro h
    unfold Stat.hit
    rw [h]
    simp
  · intro st t hst hne ht
    unfold Stat.hit
    rw [hst]
    simp only [if_neg hne, ht, Stat.timestamp, projectRow]

/-- Claim C4, witness: a status-0 record leaves the initial state
unchanged, and an ordinary record with timestamp 1005.7 lands in bucket
1000 with its extra field projected away. -/
theorem C4_witness :
    row0.lookup ("status") = some (Val.num 0) ∧
    Stat.hit 10 1006 initState row0 = some initState ∧
    rowH.lookup ("status") = some (Val.num 200) ∧
    rowH.lookup ("@timestamp") = some (Val.dt (10057 / 10)) ∧
    Stat.hit 10 1006 initState rowH = some
      { buffers := fun k =>
          if k = intTrunc ((10057 / 10 : ℚ) - pymod (10057 / 10) (((10 : ℤ)) : ℚ)) then
            some ((initState.buffers
                (intTrunc ((10057 / 10 : ℚ) - pymod (10057 / 10) (((10 : ℤ)) : ℚ)))).getD [] ++
              [rowH.filter (fun kv => Stat.columns.contains kv.1)])
          else initState.buffers k
        last_seen := fun k =>
          if k = intTrunc ((10057 / 10 : ℚ) - pymod (10057 / 10) (((10 : ℤ)) : ℚ)) then
            some 1006
          else initState.last_seen k
        last_sent := initState.last_sent } := by
  refine ⟨rfl, ?_, rfl, rfl, ?_⟩
  · exact (C4_hit_cases 10 1006 initState row0).1 rfl
  · exact (C4_hit_cases 10 1006 initState rowH).2 (Val.num 200) (10057 / 10)
      rfl (by decide) rfl

/-- Claim C9: the key sets of the aggregator's buffer map and last-seen
map coincide at every point outside the critical sections: the invariant
holds initially, `hit` inserts into both maps together, and the
ready-scan deletes from both together. -/
theorem C9_keys_invariant :
    keysAligned initState ∧
    (∀ interval now s row s', keysAligned s →
      Stat.hit interval now s row = some s' → keysAligned s') ∧
    (∀ interval delay now s, keysAligned s →
      keysAligned (Stat.get_ready_buffers interval delay s now).1) := by
  refine ⟨?_, ?_, ?_⟩
  · intro ts
    simp [initState]
  · intro interval now s row s' hinv hh
    unfold Stat.hit at hh
    split at hh
    · exact absurd hh (by simp)
    · split at hh
      · injection hh with h
        subst h
        exact hinv
      · split at hh
        · rename_i xv t heq
          injection hh with h
          subst h
          intro ts
          by_cases hts : ts = Stat.timestamp interval t
          · subst hts
            simp
          · simp only [hts, if_false, ite_false]
            exact hinv ts
        · exact absurd hh (by simp)
  · intro interval delay now s hinv ts
    unfold Stat.get_ready_buffers
    cases hr : readyAt interval delay now s ts
    · simp only [hr, Bool.false_eq_true, if_false, ite_false]
      exact hinv ts
    · simp [hr]

/-- Claim C9, witness: the invariant survives a concrete ready-scan over
the one-window state. -/
theorem C9_witness : keysAligned (Stat.get_ready_buffers 10 5 c1State 1016).1 := by
  refine C9_keys_invariant.2.2 10 5 1016 c1State ?_
  intro ts
  by_cases h : ts = 1000 <;> simp [c1State, h]

/-- The `last_sent` component after one `process` iteration: unchanged
for an already-sent bucket, otherwise appended and evicted past 100. -/
theorem processWindow_fst (env : SendEnv) (sent : List ℤ) (ts : ℤ) (n : ℕ) :
    (processWindow env sent ts n).1 =
      if ts ∈ sent then sent else evictOld (sent ++ [ts]) := by
  unfold processWindow
  by_cases h : ts ∈ sent
  · simp [h]
  · simp only [if_neg h]
    cases env.firstSend ts with
    | ok => rfl
    | raise e =>
      by_cases hs : e.isSocketError = true
      · simp only [hs, if_pos]
        cases env.connect ts with
        | ok =>
          cases env.secondSend ts with
          | ok => rfl
          | raise e2 => by_cases hk : e2.isKbOrBrokenPipe = true <;> simp [hk]
        | raise ce => by_cases hk : ce.isKbOrBrokenPipe = true <;> simp [hk]
      · by_cases hk : e.isKbOrBrokenPipe = true <;> simp [hs, hk]

/-- Bound preservation for one `process` iteration. -/
theorem processWindow_len (env : SendEnv) (sent : List ℤ) (ts : ℤ) (n : ℕ)
    (h : sent.length ≤ 100) : ((processWindow env sent ts n).1).length ≤ 100 := by
  rw [processWindow_fst]
  split_ifs with hmem
  · exact h
  · unfold evictOld
    split_ifs with hlen
    · rw [List.length_tail]
      simp only [List.length_append, List.length_singleton]
      omega
    · simp only [List.length_append, List.length_singleton] at hlen ⊢
      omega

/-- The defining equation of `Stat.process` on a nonempty window list. -/
theorem process_cons (env : SendEnv) (sent : List ℤ) (w : ℤ × ℕ)
    (rest : List (ℤ × ℕ)) :
    Stat.process env sent (w :: rest) =
      if (processWindow env sent w.1 w.2).2.2 then
        ((processWindow env sent w.1 w.2).1,
         (processWindow env sent w.1 w.2).2.1 ++ [Event.stopped])
      else
        ((Stat.process env (processWindow env sent w.1 w.2).1 rest).1,
         (processWindow env sent w.1 w.2).2.1 ++
           (Stat.process env (processWindow env sent w.1 w.2).1 rest).2) := rfl

/-- Bound preservation for a whole `process` call. -/
theorem process_len (env : SendEnv) : ∀ (windows : List (ℤ × ℕ)) (sent : List ℤ),
    sent.length ≤ 100 → ((Stat.process env sent windows).1).length ≤ 100 := by
  intro windows
  induction windows with
  | nil =>
    intro sent h
    simpa [Stat.process] using h
  | cons w rest ih =>
    intro sent h
    rw [process_cons]
    split_ifs with hstop
    · exact processWindow_len env sent w.1 w.2 h
    · exact ih _ (processWindow_len env sent w.1 w.2 h)

set_option maxRecDepth 100000 in
/-- Claim C2, counterexample.  The claim says a bucket that has reached
SENT is never sent again "no matter how many subsequent windows have
been sent in between".  But `last_sent` keeps only the 100 most recent
bucket ids: after bucket 0 is sent and 100 further buckets are sent,
bucket 0 is evicted, so a reappearing batch for bucket 0 is delivered a
second time (two `sent 0` events and no diagnostic log). -/
theorem C2_counterexample :
    (Stat.process allOk [] C2windows).2.count (Event.sent 0) = 2 ∧
    (Stat.process allOk [] C2windows).2.count (Event.lateLog 0 1) = 0 := by
  constructor <;> decide

/-- Claim C2 (amended): a batch of records reappearing for a bucket `ts`
that is still retained in the bounded recency deque `last_sent` is never
sent again: processing it emits no metric delivery, only the diagnostic
log entry, and leaves `last_sent` unchanged.  Since the deque retains
only the 100 most recently sent bucket ids, the guarantee lapses once
more than 100 other windows have been sent in between (see the
counterexample). -/
theorem C2_late_rejection (env : SendEnv) (sent : List ℤ) (ts : ℤ) (n : ℕ)
    (h : ts ∈ sent) :
    processWindow env sent ts n = (sent, [Event.lateLog ts n], false) := by
  unfold processWindow
  simp [h]

/-- Claim C2, witness: a batch for the retained bucket 0 is only logged. -/
theorem C2_witness :
    (0 : ℤ) ∈ ([0] : List ℤ) ∧
    processWindow allOk [0] 0 3 = ([0], [Event.lateLog 0 3], false) :=
  ⟨by decide, C2_late_rejection allOk [0] 0 3 (by decide)⟩

/-- Claim C7, counterexample.  The claim says that when the resend after
the single reconnect also fails, the failure is logged, the window is
dropped, and the aggregator continues with subsequent windows.  But a
resend failing with `BrokenPipeError` is caught by the outer
`except (KeyboardInterrupt, BrokenPipeError)` clause: `process` sets
`eof` and returns without logging, so window 2 is never processed. -/
theorem C7_counterexample :
    Stat.process envCE [] [((1 : ℤ), 2), ((2 : ℤ), 3)] =
      ([1], [Event.reconnect 1, Event.stopped]) ∧
    Event.errorLog 1 ∉ (Stat.process envCE [] [((1 : ℤ), 2), ((2 : ℤ), 3)]).2 ∧
    Event.sent 2 ∉ (Stat.process envCE [] [((1 : ℤ), 2), ((2 : ℤ), 3)]).2 := by
  refine ⟨by decide, by decide, by decide⟩

/-- Claim C7 (amended): when the first send of a new window raises a
socket error, the aggregator reconnects exactly once and resends the
whole window's metrics.  If the resend succeeds the window is delivered;
if the resend fails with an error other than `BrokenPipeError` or
`KeyboardInterrupt`, the failure is logged, the window's metrics are
dropped (not requeued), and processing continues with subsequent
windows; if the resend fails with `BrokenPipeError` (or
`KeyboardInterrupt`), the aggregator signals shutdown and stops, the
window's metrics being dropped without an error log. -/
theorem C7_retry (env : SendEnv) (sent : List ℤ) (ts : ℤ) (n : ℕ) (e : PyExc)
    (hnew : ts ∉ sent) (hfail : env.firstSend ts = Attempt.raise e)
    (hsock : e.isSocketError = true) :
    (env.connect ts = Attempt.ok → env.secondSend ts = Attempt.ok →
      processWindow env sent ts n =
        (evictOld (sent ++ [ts]), [Event.reconnect ts, Event.sent ts], false)) ∧
    (∀ e2, env.connect ts = Attempt.ok → env.secondSend ts = Attempt.raise e2 →
      e2.isKbOrBrokenPipe = false →
      processWindow env sent ts n =
        (evictOld (sent ++ [ts]), [Event.reconnect ts, Event.errorLog ts], false)) ∧
    (∀ e2, env.connect ts = Attempt.ok → env.secondSend ts = Attempt.raise e2 →
      e2.isKbOrBrokenPipe = true →
      processWindow env sent ts n =
        (evictOld (sent ++ [ts]), [Event.reconnect ts], true)) ∧
    (∀ (w : ℤ × ℕ) (rest : List (ℤ × ℕ)) (sent0 : List ℤ),
      (processWindow env sent0 w.1 w.2).2.2 = false →
      Stat.process env sent0 (w :: rest) =
        ((Stat.process env (processWindow env sent0 w.1 w.2).1 rest).1,
         (processWindow env sent0 w.1 w.2).2.1 ++
           (Stat.process env (processWindow env sent0 w.1 w.2).1 rest).2)) := by
  refine ⟨?_, ?_, ?_, ?_⟩
  · intro hconn hsend
    simp [processWindow, hnew, hfail, hsock, hconn, hsend]
  · intro e2 hconn hsend hk
    simp [processWindow, hnew, hfail, hsock, hconn, hsend, hk]
  · intro e2 hconn hsend hk
    simp [processWindow, hnew, hfail, hsock, hconn, hsend, hk]
  · intro w rest sent0 hstop
    rw [process_cons, if_neg (by simp [hstop])]

/-- Claim C7, witness: a socket error on the first send, a successful
reconnect, and a generic (non-broken-pipe) failure of the resend yield
one reconnect, an error log, and continuation. -/
theorem C7_witness :
    processWindow envW [] 3 2 =
      (evictOld ([] ++ [3]), [Event.reconnect 3, Event.errorLog 3], false) :=
  (C7_retry envW [] 3 2 PyExc.sockError (by decide) rfl rfl).2.1 PyExc.other rfl rfl rfl

/-- Claim C10: the recency deque `last_sent` never holds more than 100
entries: one iteration preserves the bound; when a new bucket id is
appended to a full deque of 100 the oldest entry is evicted (so only the
100 most recently sent bucket ids are remembered); and a whole `process`
call preserves the bound. -/
theorem C10_last_sent_bound (env : SendEnv) (sent : List ℤ) (ts : ℤ) (n : ℕ)
    (windows : List (ℤ × ℕ)) :
    (sent.length ≤ 100 → ((processWindow env sent ts n).1).length ≤ 100) ∧
    (ts ∉ sent → sent.length = 100 →
      (processWindow env sent ts n).1 = sent.tail ++ [ts]) ∧
    (sent.length ≤ 100 → ((Stat.process env sent windows).1).length ≤ 100) := by
  refine ⟨fun h => processWindow_len env sent ts n h, ?_, fun h => process_len env windows sent h⟩
  intro hnot hlen
  rw [processWindow_fst, if_neg hnot]
  unfold evictOld
  rw [if_pos]
  · cases sent with
    | nil => simp at hlen
    | cons a l => simp
  · simp only [List.length_append, List.length_singleton, hlen]
    omega

/-- Claim C10, witness: the bound holds after processing a window from
an empty deque. -/
theorem C10_witness :
    ([] : List ℤ).length ≤ 100 ∧ ((processWindow allOk [] 5 1).1).length ≤ 100 :=
  ⟨by decide, (C10_last_sent_bound allOk [] 5 1 []).1 (by decide)⟩

/-- Claim C8: with `--stdout` the schema-template phase performs no
check at all and selects the stdout runner; otherwise `check_template`
is invoked exactly once at startup (not per chunk), and a
`ConnectionError` while verifying or creating the template makes the
process exit with the non-zero status 1. -/
theorem C8_template_check :
    (∀ t, mainTemplatePhase true t = (MainResult.runStdout, 0)) ∧
    (∀ t, (mainTemplatePhase false t).2 = 1) ∧
    mainTemplatePhase false TemplateOutcome.connectionError =
      (MainResult.exitCode 1, 1) ∧
    (1 : ℕ) ≠ 0 := by
  refine ⟨fun t => rfl, fun t => ?_, rfl, one_ne_zero⟩
  cases t <;> rfl

/-- Digit characters produced by `Nat.digitChar` on values below 10 are
decimal digits. -/
theorem digitChar_isDigit : ∀ n : ℕ, n < 10 → (Nat.digitChar n).isDigit = true := by
  decide

/-- Every character of a rendered natural number is a decimal digit. -/
theorem natToCharsAux_digits : ∀ (fuel n : ℕ) (c : Char),
    c ∈ natToCharsAux fuel n → c.isDigit = true := by
  intro fuel
  induction fuel with
  | zero =>
    intro n c hc
    simp [natToCharsAux] at hc
  | succ f ih =>
    intro n c hc
    unfold natToCharsAux at hc
    split_ifs at hc with h
    · simp at hc
      subst hc
      exact digitChar_isDigit n h
    · rcases List.mem_append.mp hc with h1 | h1
      · exact ih _ _ h1
      · simp at h1
        subst h1
        exact digitChar_isDigit _ (Nat.mod_lt _ (by decide))

/-- Every character of a rendered natural number is a decimal digit. -/
theorem natToChars_digits (n : ℕ) (c : Char) (hc : c ∈ natToChars n) :
    c.isDigit = true := natToCharsAux_digits (n + 1) n c hc

/-- A rendered integer never contains the metric path separator. -/
theorem dot_not_mem_intToChars (n : ℤ) : '.' ∉ intToChars n := by
  unfold intToChars
  split_ifs with h
  · intro hm
    rcases List.mem_cons.mp hm with h1 | h1
    · exact absurd h1 (by decide)
    · exact absurd (natToChars_digits _ _ h1) (by decide)
  · intro hm
    exact absurd (natToChars_digits _ _ hm) (by decide)

/-- The padded fractional field has exactly three digit characters. -/
theorem pad3_spec (n : ℤ) :
    (pad3 n).length = 3 ∧ ∀ c ∈ pad3 n, c.isDigit = true := by
  refine ⟨rfl, ?_⟩
  intro c hc
  simp [pad3] at hc
  rcases hc with h | h | h <;>
    (subst h; exact digitChar_isDigit _ (Nat.mod_lt _ (by decide)))

/-- `splitDot` always yields at least one component. -/
theorem splitDot_ne_nil (s : List Char) : splitDot s ≠ [] := by
  cases s with
  | nil => simp [splitDot]
  | cons c rest =>
    unfold splitDot
    cases splitDot rest with
    | nil => simp
    | cons h t => split_ifs <;> simp

/-- Separator substitution removes every separator character. -/
theorem repDot_no_dot (s : List Char) : '.' ∉ repDot s := by
  intro hm
  rcases List.mem_map.mp hm with ⟨a, _, ha⟩
  by_cases h : a = '.'
  · rw [if_pos h] at ha
    exact absurd ha (by decide)
  · rw [if_neg h] at ha
    exact h ha

/-- Splitting a separator-free component returns it whole. -/
theorem splitDot_single (p : List Char) (h : '.' ∉ p) : splitDot p = [p] := by
  induction p with
  | nil => rfl
  | cons c rest ih =>
    have hc : ¬ c = '.' := fun e => h (e ▸ List.mem_cons_self c rest)
    have hr : '.' ∉ rest := fun m => h (List.mem_cons_of_mem _ m)
    unfold splitDot
    rw [ih hr]
    simp [hc]

/-- Splitting past a separator-free head component. -/
theorem splitDot_append (p r : List Char) (h : '.' ∉ p) :
    splitDot (p ++ '.' :: r) = p :: splitDot r := by
  induction p with
  | nil =>
    show splitDot ('.' :: r) = [] :: splitDot r
    conv_lhs => rw [splitDot]
    cases hx : splitDot r with
    | nil => exact absurd hx (splitDot_ne_nil r)
    | cons a t => simp
  | cons c rest ih =>
    have hc : ¬ c = '.' := fun e => h (e ▸ List.mem_cons_self c rest)
    have hrest : '.' ∉ rest := fun m => h (List.mem_cons_of_mem _ m)
    simp only [List.cons_append]
    conv_lhs => rw [splitDot]
    rw [ih hrest]
    simp [hc]

/-- `splitDot` inverts `joinDot` on nonempty lists of separator-free parts. -/
theorem splitDot_joinDot : ∀ (parts : List (List Char)), parts ≠ [] →
    (∀ p ∈ parts, '.' ∉ p) → splitDot (joinDot parts) = parts := by
  intro parts
  induction parts with
  | nil =>
    intro h _
    exact absurd rfl h
  | cons p ps ih =>
    intro _ hall
    cases ps with
    | nil =>
      simpa [joinDot] using splitDot_single p (hall p (List.mem_cons_self _ _))
    | cons q qs =>
      have h1 : '.' ∉ p := hall p (List.mem_cons_self _ _)
      have h2 : ∀ x ∈ q :: qs, '.' ∉ x := fun x hx => hall x (List.mem_cons_of_mem _ hx)
      show splitDot (p ++ '.' :: joinDot (q :: qs)) = p :: (q :: qs)
      rw [splitDot_append p _ h1, ih (by simp) h2]

/-- Claim C5: every emitted metric line is `identifier, space, value,
space, timestamp, newline` for some metric of the window; a float value
is rendered with exactly three decimal places (three digit characters
after the unique separator), with `1.0` rendering as `1.000`; and in
`metric_name` every separator inside a part is substituted, so the
number of separator-delimited components of the identifier equals the
component count of the prefix plus the number of argument parts,
independently of the parts' contents. -/
theorem C5_metric_format :
    (∀ (ms : List (List Char × MetricVal)) (ts : ℤ) (line : List Char),
      line ∈ Stat.send_metrics ms ts →
      ∃ nv, nv ∈ ms ∧
        line = nv.1 ++ ' ' :: renderVal nv.2 ++ ' ' :: intToChars ts ++ ['\n']) ∧
    renderVal (MetricVal.floatv 1) = ("1.000").toList ∧
    (∀ q : ℚ, ∃ pre rest, format3 q = pre ++ '.' :: rest ∧ rest.length = 3 ∧
      (∀ c ∈ rest, c.isDigit = true) ∧ '.' ∉ pre) ∧
    (∀ (pfx : List Char) (args : List MetricArg),
      (splitDot (Stat.metric_name pfx args)).length =
        (splitDot pfx).length + ((args.map MetricArg.parts).flatten).length) := by
  refine ⟨?_, ?_, ?_, ?_⟩
  · intro ms ts line hline
    unfold Stat.send_metrics at hline
    rcases List.mem_map.mp hline with ⟨nv, hnv, rfl⟩
    exact ⟨nv, hnv, rfl⟩
  · show format3 1 = ("1.000").toList
    have h : round ((1 : ℚ) * 1000) = 1000 := by norm_num [round_eq]
    unfold format3 format3n
    rw [if_neg (by norm_num), h]
    decide
  · intro q
    unfold format3
    split_ifs with hq
    · refine ⟨'-' :: intToChars (round (-q * 1000) / 1000),
        pad3 (round (-q * 1000) % 1000), ?_, (pad3_spec _).1, (pad3_spec _).2, ?_⟩
      · unfold format3n
        rfl
      · intro hm
        rcases List.mem_cons.mp hm with h1 | h1
        · exact absurd h1 (by decide)
        · exact dot_not_mem_intToChars _ h1
    · exact ⟨intToChars (round (q * 1000) / 1000), pad3 (round (q * 1000) % 1000),
        rfl, (pad3_spec _).1, (pad3_spec _).2, dot_not_mem_intToChars _⟩
  · intro pfx args
    unfold Stat.metric_name
    have hne : (splitDot pfx ++ (args.map MetricArg.parts).flatten).map repDot ≠ [] := by
      intro hnil
      have hlen := congrArg List.length hnil
      simp only [List.length_map, List.length_append, List.length_nil] at hlen
      have : splitDot pfx = [] := List.length_eq_zero.mp (by omega)
      exact splitDot_ne_nil pfx this
    have hdot : ∀ p ∈ (splitDot pfx ++ (args.map MetricArg.parts).flatten).map repDot,
        '.' ∉ p := by
      intro p hp
      rcases List.mem_map.mp hp with ⟨a, _, rfl⟩
      exact repDot_no_dot a
    rw [splitDot_joinDot _ hne hdot, List.length_map, List.length_append]

/-- Claim C5, witness: the single line for a float metric of value 1 in
a one-metric window has the stated shape. -/
theorem C5_witness :
    metricLine (("cpu").toList) (MetricVal.floatv 1) 7 ∈ Stat.send_metrics wMetrics 7 ∧
    (∃ nv, nv ∈ wMetrics ∧
      metricLine (("cpu").toList) (MetricVal.floatv 1) 7 =
        nv.1 ++ ' ' :: renderVal nv.2 ++ ' ' :: intToChars 7 ++ ['\n']) := by
  refine ⟨by simp [Stat.send_metrics, wMetrics], ?_⟩
  exact C5_metric_format.1 wMetrics 7 _ (by simp [Stat.send_metrics, wMetrics])

/-- `uuidSubAux` leaves the empty input unchanged for any fuel. -/
theorem uuidSubAux_nil (fuel : ℕ) : uuidSubAux fuel [] = [] := by
  cases fuel <;> rfl

/-- A segment that is exactly a canonical UUID is wholly replaced. -/
theorem uuidSub_exact (s : List Char) (h : matchUuid s = some []) :
    uuidSub s = ("<uuid>").toList := by
  cases s with
  | nil => exact absurd h (by decide)
  | cons c rest =>
    show uuidSubAux (c :: rest).length (c :: rest) = _
    rw [List.length_cons]
    conv_lhs => rw [uuidSubAux]
    rw [h]
    simp [uuidSubAux_nil]

/-- Consuming hex characters from an all-digit string leaves an
all-digit remainder. -/
theorem takeHex_all : ∀ (k : ℕ) (s r : List Char),
    s.all Char.isDigit = true → takeHex k s = some r → r.all Char.isDigit = true := by
  intro k
  induction k with
  | zero =>
    intro s r hs h
    unfold takeHex at h
    injection h with h
    subst h
    exact hs
  | succ kk ih =>
    intro s r hs h
    cases s with
    | nil => simp [takeHex] at h
    | cons c rest =>
      unfold takeHex at h
      split_ifs at h with hx
      have hrest : rest.all Char.isDigit = true := by
        rw [List.all_cons, Bool.and_eq_true] at hs
        exact hs.2
      exact ih rest r hrest h

/-- An all-digit string never starts with the dash the UUID needs. -/
theorem digits_no_dash (s : List Char) (h : s.all Char.isDigit = true) :
    takeDash s = none := by
  cases s with
  | nil => rfl
  | cons c rest =>
    have hc : c.isDigit = true := by
      rw [List.all_cons, Bool.and_eq_true] at h
      exact h.1
    have hd : ¬ c = '-' := by
      intro e
      rw [e] at hc
      exact absurd hc (by decide)
    simp [takeDash, hd]

/-- The UUID pattern never matches inside an all-digit string. -/
theorem digits_matchUuid (s : List Char) (h : s.all Char.isDigit = true) :
    matchUuid s = none := by
  unfold matchUuid
  cases h8 : takeHex 8 s with
  | none => rfl
  | some r =>
    have hr := takeHex_all 8 s r h h8
    simp [digits_no_dash r hr]

/-- The UUID substitution leaves all-digit strings unchanged. -/
theorem uuidSubAux_digits : ∀ (fuel : ℕ) (s : List Char),
    s.all Char.isDigit = true → uuidSubAux fuel s = s := by
  intro fuel
  induction fuel with
  | zero =>
    intro s h
    rfl
  | succ f ih =>
    intro s h
    cases s with
    | nil => rfl
    | cons c rest =>
      conv_lhs => rw [uuidSubAux]
      rw [digits_matchUuid (c :: rest) h]
      have hrest : rest.all Char.isDigit = true := by
        rw [List.all_cons, Bool.and_eq_true] at h
        exact h.2
      rw [ih rest hrest]

/-- Claim C6: in the per-window normalization of `metrics`, a path
segment equal to the canonical UUID form becomes the `<uuid>`
placeholder, a nonempty fully numeric segment becomes the `<id>`
placeholder, a missing segment becomes the `#` placeholder, and a
missing cache status becomes the `NONE` placeholder. -/
theorem C6_normalization :
    (∀ s : List Char, matchUuid s = some [] →
      normalizePath (some s) = ("<uuid>").toList) ∧
    (∀ s : List Char, s ≠ [] → s.all Char.isDigit = true →
      normalizePath (some s) = ("<id>").toList) ∧
    normalizePath none = ('#' :: []) ∧
    normalizeCache none = ("NONE").toList := by
  refine ⟨?_, ?_, rfl, rfl⟩
  · intro s h
    show (if uuidSub s ≠ [] ∧ (uuidSub s).all Char.isDigit = true
          then ("<id>").toList else uuidSub s) = ("<uuid>").toList
    rw [uuidSub_exact s h]
    rw [if_neg (by decide)]
  · intro s hne hd
    show (if uuidSub s ≠ [] ∧ (uuidSub s).all Char.isDigit = true
          then ("<id>").toList else uuidSub s) = ("<id>").toList
    unfold uuidSub
    rw [uuidSubAux_digits s.length s hd]
    rw [if_pos ⟨hne, hd⟩]

/-- Claim C6, witness: the spec's sample UUID and the sample numeric
segment normalize to their placeholders. -/
theorem C6_witness :
    matchUuid uuidEx = some [] ∧
    normalizePath (some uuidEx) = ("<uuid>").toList ∧
    (("12345").toList ≠ ([] : List Char) ∧ ("12345").toList.all Char.isDigit = true) ∧
    normalizePath (some (("12345").toList)) = ("<id>").toList := by
  refine ⟨by decide, ?_, ⟨by decide, by decide⟩, ?_⟩
  · exact C6_normalization.1 uuidEx (by decide)
  · exact C6_normalization.2.1 (("12345").toList) (by decide) (by decide)

/-- Truncation toward zero agrees with the identity on integer reals. -/
theorem truncZ_intCast (n : ℤ) : truncZ ((n : ℤ) : ℝ) = n := by
  unfold truncZ
  split_ifs with h
  · exact Int.floor_intCast n
  · exact Int.ceil_intCast n

/-- Truncation toward zero is monotone. -/
theorem truncZ_mono {x y : ℝ} (h : x ≤ y) : truncZ x ≤ truncZ y := by
  by_cases hx : (0 : ℝ) ≤ x <;> by_cases hy : (0 : ℝ) ≤ y
  · simp only [truncZ, if_pos hx, if_pos hy]
    exact Int.floor_le_floor h
  · exact absurd (hx.trans h) hy
  · simp only [truncZ, if_neg hx, if_pos hy]
    have h1 : (⌈x⌉ : ℤ) ≤ 0 := by
      rw [Int.ceil_le]
      exact_mod_cast le_of_lt (not_le.mp hx)
    have h2 : (0 : ℤ) ≤ ⌊y⌋ := Int.floor_nonneg.mpr hy
    omega
  · simp only [truncZ, if_neg hx, if_neg hy]
    exact Int.ceil_le_ceil h

/-- Base-10 logarithm of an integer power of 10. -/
theorem logb10_zpow (n : ℤ) : Real.logb 10 ((10 : ℝ) ^ n) = n := by
  unfold Real.logb
  rw [Real.log_zpow, mul_div_assoc, div_self (Real.log_pos (by norm_num)).ne', mul_one]

/-- Claim C3, counterexample.  The code's bucketing truncates toward
zero rather than rounding (`astype(np.int)`): at value 1.2 (= 6/5) the
code's bucket is 0 while the claimed `round(log10(value) * 10)` is 1.
It is not monotonic nondecreasing: 10⁻¹⁰ is positive (and below 0.001)
yet its bucket −100 lies below the zero bucket −31, which also shows
that zero and the positive values below 0.001 do not all share one
distinguished lowest bucket. -/
theorem C3_counterexample :
    Stat.log10_bins 0 = -31 ∧
    (0 : ℝ) < (10 : ℝ) ^ (-10 : ℤ) ∧
    (10 : ℝ) ^ (-10 : ℤ) < 1 / 1000 ∧
    Stat.log10_bins ((10 : ℝ) ^ (-10 : ℤ)) = -100 ∧
    Stat.log10_bins (6 / 5) = 0 ∧
    specBin (6 / 5) = 1 := by
  have hpow : (0 : ℝ) < (10 : ℝ) ^ (-10 : ℤ) := zpow_pos (by norm_num) _
  have hz : Real.logb 10 ((6 : ℝ) / 5) * 10 = Real.logb 10 (((6 : ℝ) / 5) ^ (10 : ℕ)) := by
    rw [Real.logb_pow]
    push_cast
    ring
  have hself : Real.logb 10 (10 : ℝ) = 1 := Real.logb_self_eq_one (by norm_num)
  have h1 : (0 : ℝ) ≤ Real.logb 10 ((6 : ℝ) / 5) * 10 := by
    rw [hz]
    exact Real.logb_nonneg (by norm_num) (by norm_num)
  have h2 : Real.logb 10 ((6 : ℝ) / 5) * 10 < 1 := by
    rw [hz]
    calc Real.logb 10 (((6 : ℝ) / 5) ^ (10 : ℕ)) < Real.logb 10 (10 : ℝ) :=
          Real.logb_lt_logb (by norm_num) (by positivity) (by norm_num)
      _ = 1 := hself
  have h3 : (1 : ℝ) / 2 ≤ Real.logb 10 ((6 : ℝ) / 5) * 10 := by
    have h20 : Real.logb 10 ((6 : ℝ) / 5) * 20 =
        Real.logb 10 (((6 : ℝ) / 5) ^ (20 : ℕ)) := by
      rw [Real.logb_pow]
      push_cast
      ring
    have hge : (1 : ℝ) ≤ Real.logb 10 (((6 : ℝ) / 5) ^ (20 : ℕ)) :=
      calc (1 : ℝ) = Real.logb 10 (10 : ℝ) := hself.symm
        _ ≤ Real.logb 10 (((6 : ℝ) / 5) ^ (20 : ℕ)) :=
            Real.logb_le_logb_of_le (by norm_num) (by norm_num) (by norm_num)
    linarith
  refine ⟨by simp [Stat.log10_bins], hpow, by norm_num, ?_, ?_, ?_⟩
  · unfold Stat.log10_bins
    rw [if_neg (not_le.mpr hpow), logb10_zpow]
    have hc : ((-10 : ℤ) : ℝ) * 10 = ((-100 : ℤ) : ℝ) := by
      push_cast
      ring
    rw [hc, truncZ_intCast]
  · unfold Stat.log10_bins truncZ
    rw [if_neg (by norm_num), if_pos h1]
    exact Int.floor_eq_zero_iff.mpr ⟨h1, h2⟩
  · unfold specBin
    rw [round_eq]
    refine Int.floor_eq_iff.mpr ⟨?_, ?_⟩
    · push_cast
      linarith
    · push_cast
      linarith

/-- Claim C3 (amended): the code's bucket index applies truncation
toward zero to `log10(value) × 10`; it is monotonic nondecreasing on
positive inputs; exactly zero maps to the fixed bucket −31; and 0.001
maps to bucket −30 (the start of the regular range, per the source's
own comment).  Monotonicity does not extend to zero, and sufficiently
small positive values map below −31, as the counterexample shows. -/
theorem C3_log10_bins (x y : ℝ) (hx : 0 < x) (hxy : x ≤ y) :
    Stat.log10_bins x ≤ Stat.log10_bins y ∧
    Stat.log10_bins 0 = -31 ∧
    Stat.log10_bins (1 / 1000) = -30 := by
  refine ⟨?_, by simp [Stat.log10_bins], ?_⟩
  · unfold Stat.log10_bins
    rw [if_neg (not_le.mpr hx), if_neg (not_le.mpr (lt_of_lt_of_le hx hxy))]
    exact truncZ_mono (mul_le_mul_of_nonneg_right
      (Real.logb_le_logb_of_le (by norm_num) hx hxy) (by norm_num))
  · have h1 : (1 : ℝ) / 1000 = (10 : ℝ) ^ (-3 : ℤ) := by
      rw [zpow_neg]
      norm_num
    unfold Stat.log10_bins
    rw [if_neg (by norm_num), h1, logb10_zpow]
    have h2 : ((-3 : ℤ) : ℝ) * 10 = ((-30 : ℤ) : ℝ) := by
      push_cast
      ring
    rw [h2, truncZ_intCast]

/-- Claim C3, witness: monotonicity applied at the pair (1, 10),
together with the fixed values at 0 and 0.001. -/
theorem C3_witness :
    (0 : ℝ) < 1 ∧ (1 : ℝ) ≤ 10 ∧
    (Stat.log10_bins 1 ≤ Stat.log10_bins 10 ∧
     Stat.log10_bins 0 = -31 ∧
     Stat.log10_bins (1 / 1000) = -30) :=
  ⟨one_pos, by norm_num, C3_log10_bins 1 10 one_pos (by norm_num)⟩

end Nginx2es
